import Mathlib

/-!
Shallow embedding of the DentBook scheduling backend (src/main.py).

The relational store is modelled as lists of rows, one list per table, in
insertion order (SQLite scans return rows in rowid order for these tables,
which is insertion order; `fetchone` returns the first matching row).
`INSERT` appends a row; `DELETE ... WHERE` removes every matching row;
`UPDATE ... WHERE` maps a field rewrite over the matching rows.
Generated values (uuid4 ids, the random color) are passed as explicit
parameters.  Endpoints that raise HTTPException are modelled with `Except`.
-/

namespace DentBook

/-- Error taxonomy of the HTTP endpoints: 400 duplicate key, 401, 404, 400 bad request. -/
inductive Err where
  | Conflict
  | Unauthorized
  | NotFound
  | BadRequest
deriving DecidableEq, Repr

/-- A row of the `doctors` table; also the Pydantic `Doctor` payload
(minus the derived `matches` field, which endpoints compute separately). -/
structure Doctor where
  id : String
  student_id : String
  username : String
  password : String
  color : String
  phone : Option String
  country_code : Option String
deriving DecidableEq, Repr

/-- A row of the `matches` table; primary key is the whole row. -/
structure MatchRow where
  doctor_id : String
  target_id : String
deriving DecidableEq, Repr

/-- A row of the `match_requests` table. -/
structure MatchRequestRow where
  id : String
  from_id : String
  from_name : String
  to_student_id : String
deriving DecidableEq, Repr

/-- The Pydantic `Patient` payload: `r4` is optional. -/
structure Patient where
  id : String
  doctor_id : String
  name : String
  r4 : Option String
deriving DecidableEq, Repr

/-- A row of the `patients` table: `r4` is stored as `p.r4 or ""`, never NULL. -/
structure PatientRow where
  id : String
  doctor_id : String
  name : String
  r4 : String
deriving DecidableEq, Repr

/-- A row of the `appointments` table; also the Pydantic `Appointment` payload. -/
structure AppointmentRow where
  id : String
  doctor_id : String
  day : String
  session : String
  patient_name : String
  patient_r4 : String
  duration : String
  type : String
  other_type_details : Option String
  rank : Int
deriving DecidableEq, Repr

/-- A row of the `blocked_days` table; primary key is the whole row. -/
structure BlockedDayRow where
  doctor_id : String
  day : String
deriving DecidableEq, Repr

/-- A row of the `global_blocks` table; primary key is the whole row. -/
structure GlobalBlockRow where
  doctor_id : String
  day_of_week : String
  session : String
deriving DecidableEq, Repr

/-- The whole SQLite database `dentbook.db`: six tables, each a list of rows. -/
structure Store where
  doctors : List Doctor
  match_rows : List MatchRow
  match_requests : List MatchRequestRow
  patients : List PatientRow
  appointments : List AppointmentRow
  blocked_days : List BlockedDayRow
  global_blocks : List GlobalBlockRow
deriving DecidableEq, Repr

/-- The store right after `init_db` on a fresh file: every table empty. -/
def emptyStore : Store :=
  { doctors := [], match_rows := [], match_requests := [], patients := [],
    appointments := [], blocked_days := [], global_blocks := [] }

/-- `get_matches_list`: `SELECT target_id FROM matches WHERE doctor_id = ?`. -/
def get_matches_list (store : Store) (doctor_id : String) : List String :=
  (store.match_rows.filter (fun m => m.doctor_id == doctor_id)).map (fun m => m.target_id)

/-- `register` endpoint: 400 Conflict when the student_id is taken, otherwise
insert with the generated id and random color and return the stored profile. -/
def register (store : Store) (doctor : Doctor) (newId newColor : String) :
    Except Err (Doctor × Store) :=
  if store.doctors.any (fun d => d.student_id == doctor.student_id) then
    .error .Conflict
  else
    let d := { doctor with id := newId, color := newColor }
    .ok (d, { store with doctors := store.doctors ++ [d] })

/-- `login` endpoint: exact (student_id, password) match or 401; on success the
profile plus the resolved matches list. -/
def login (store : Store) (student_id password : String) :
    Except Err (Doctor × List String) :=
  match store.doctors.find? (fun d => d.student_id == student_id && d.password == password) with
  | none => .error .Unauthorized
  | some d => .ok (d, get_matches_list store d.id)

/-- `get_me` endpoint: look a doctor up by id, 404 when absent. -/
def get_me (store : Store) (id : String) : Except Err (Doctor × List String) :=
  match store.doctors.find? (fun d => d.id == id) with
  | none => .error .NotFound
  | some d => .ok (d, get_matches_list store id)

/-- Python's `s.split(",")` on the character list of `s`: always non-empty,
`[""]` for the empty string. -/
def pySplitChars : List Char → List (List Char)
  | [] => [[]]
  | c :: rest =>
    if c = ',' then [] :: pySplitChars rest
    else
      match pySplitChars rest with
      | [] => [[c]]
      | t :: ts => (c :: t) :: ts

/-- Python's `s.split(",")` as a function on `String`. -/
def pySplit (s : String) : List String :=
  (pySplitChars s.data).map (fun cs => String.mk cs)

/-- `get_doctors_batch` endpoint: split the comma-joined ids, return `[]` when
the split list is empty, otherwise `SELECT * FROM doctors WHERE id IN (...)`. -/
def get_doctors_batch (store : Store) (ids : String) : List Doctor :=
  let id_list := pySplit ids
  if id_list.isEmpty then []
  else store.doctors.filter (fun d => id_list.contains d.id)

/-- `INSERT OR IGNORE INTO matches`: the primary key is the whole row, so the
insert is skipped exactly when the row is already present. -/
def insertOrIgnoreMatch (rows : List MatchRow) (r : MatchRow) : List MatchRow :=
  if r ∈ rows then rows else rows ++ [r]

/-- `accept_match` endpoint: 404 when the request id is gone; otherwise resolve
the target by the stored student_id, insert both directions when resolvable,
and delete the request in every case. -/
def accept_match (store : Store) (req_id : String) : Except Err Store :=
  match store.match_requests.find? (fun r => r.id == req_id) with
  | none => .error .NotFound
  | some req =>
    let withMatches :=
      match store.doctors.find? (fun d => d.student_id == req.to_student_id) with
      | some target =>
        let m1 := insertOrIgnoreMatch store.match_rows ⟨target.id, req.from_id⟩
        let m2 := insertOrIgnoreMatch m1 ⟨req.from_id, target.id⟩
        { store with match_rows := m2 }
      | none => store
    .ok { withMatches with
          match_requests := withMatches.match_requests.filter (fun r => !(r.id == req_id)) }

/-- `get_patients` endpoint: `SELECT * FROM patients WHERE doctor_id = ?`. -/
def get_patients (store : Store) (doctor_id : String) : List PatientRow :=
  store.patients.filter (fun p => p.doctor_id == doctor_id)

/-- `add_patient` endpoint: generate the id, store `p.r4 or ""` (Python `or`
maps both `None` and `""` to `""`), return the payload with the new id. -/
def add_patient (store : Store) (p : Patient) (newId : String) : Patient × Store :=
  let returned := { p with id := newId }
  (returned,
    { store with patients := store.patients ++ [⟨newId, p.doctor_id, p.name, p.r4.getD ""⟩] })

/-- Ranks of the (doctor, day, session) bucket, in storage order:
`SELECT rank FROM appointments WHERE doctor_id=? AND day=? AND session=?`. -/
def bucketRanks (store : Store) (doctor_id day session : String) : List Int :=
  (store.appointments.filter
    (fun a => a.doctor_id == doctor_id && a.day == day && a.session == session)).map
    (fun a => a.rank)

/-- SQL `MAX(...)` over a column: NULL (`none`) on the empty set. -/
def sqlMax (l : List Int) : Option Int :=
  l.foldl (fun acc r =>
    match acc with
    | none => some r
    | some m => some (max m r)) none

/-- `create_appointment` endpoint: compute `(MAX(rank) or 0) + 1` over the
target bucket, insert the row with that rank, and return the mutated payload —
whose `rank` field was never reassigned and so still holds the submitted value. -/
def create_appointment (store : Store) (appt : AppointmentRow) (newId : String) :
    AppointmentRow × Store :=
  let new_rank := (sqlMax (bucketRanks store appt.doctor_id appt.day appt.session)).getD 0 + 1
  let stored := { appt with id := newId, rank := new_rank }
  let returned := { appt with id := newId }
  (returned, { store with appointments := store.appointments ++ [stored] })

/-- Insert a row into a rank-sorted list, before the first row of rank ≥ its
own, so that rows of equal rank keep their storage order. -/
def insertByRank (a : AppointmentRow) : List AppointmentRow → List AppointmentRow
  | [] => [a]
  | b :: rest => if b.rank < a.rank then b :: insertByRank a rest else a :: b :: rest

/-- `ORDER BY rank ASC` as a stable insertion sort: ties keep storage order. -/
def orderByRank : List AppointmentRow → List AppointmentRow
  | [] => []
  | a :: rest => insertByRank a (orderByRank rest)

/-- `get_appointments` endpoint: split the comma-joined doctor ids, return `[]`
when the split list is empty, otherwise select the rows of those doctors
`ORDER BY rank ASC`. -/
def get_appointments (store : Store) (doctor_ids : String) : List AppointmentRow :=
  let ids := pySplit doctor_ids
  if ids.isEmpty then []
  else orderByRank (store.appointments.filter (fun a => ids.contains a.doctor_id))

/-- One iteration of the reorder loop:
`UPDATE appointments SET rank = ? WHERE id = ?`. -/
def setRank (appts : List AppointmentRow) (appt_id : String) (rank : Int) :
    List AppointmentRow :=
  appts.map (fun a => if a.id == appt_id then { a with rank := rank } else a)

/-- The `for index, appt_id in enumerate(req.ids)` loop of `reorder_appointments`. -/
def reorderLoop (appts : List AppointmentRow) (ids : List String) (index : Int) :
    List AppointmentRow :=
  match ids with
  | [] => appts
  | i :: rest => reorderLoop (setRank appts i index) rest (index + 1)

/-- `reorder_appointments` endpoint: rewrite each listed id's rank to its
zero-based position in the list. -/
def reorder_appointments (store : Store) (ids : List String) : Store :=
  { store with appointments := reorderLoop store.appointments ids 0 }

/-- Zero-based position of the first occurrence of `x` in `ids`. -/
def posOf (ids : List String) (x : String) : Option Nat :=
  match ids with
  | [] => none
  | i :: rest => if i = x then some 0 else (posOf rest x).map (fun k => k + 1)

/-- The accumulated rewrite the reorder loop applies to a single row. -/
def rankAfter (ids : List String) (index : Int) (a : AppointmentRow) : AppointmentRow :=
  match ids with
  | [] => a
  | i :: rest => rankAfter rest (index + 1) (if a.id == i then { a with rank := index } else a)

/-- `move_appointment` endpoint:
`UPDATE appointments SET day = ?, session = ? WHERE id = ?`. -/
def move_appointment (store : Store) (appt_id day session : String) : Store :=
  { store with appointments :=
      store.appointments.map (fun a =>
        if a.id == appt_id then { a with day := day, session := session } else a) }

/-- `toggle_blocked_day` endpoint: delete the (doctor_id, day) row when present,
insert it when absent; returns the status string of the taken branch. -/
def toggle_blocked_day (store : Store) (doctor_id day : String) : Store × String :=
  if store.blocked_days.any (fun b => b.doctor_id == doctor_id && b.day == day) then
    ({ store with blocked_days :=
        store.blocked_days.filter (fun b => !(b.doctor_id == doctor_id && b.day == day)) },
     "unblocked")
  else
    ({ store with blocked_days := store.blocked_days ++ [⟨doctor_id, day⟩] }, "blocked")

/-- `toggle_global_block` endpoint: delete the (doctor_id, day_of_week, session)
row when present, insert it when absent. -/
def toggle_global_block (store : Store) (doctor_id day_of_week session : String) :
    Store × String :=
  if store.global_blocks.any
      (fun g => g.doctor_id == doctor_id && g.day_of_week == day_of_week && g.session == session) then
    ({ store with global_blocks := store.global_blocks.filter (fun g => !(g.doctor_id == doctor_id && g.day_of_week == day_of_week && g.session == session)) },
     "toggled")
  else
    ({ store with global_blocks := store.global_blocks ++ [⟨doctor_id, day_of_week, session⟩] },
     "toggled")

/-- A sample appointment payload for doctor `d1` in the (Mon, Morning) bucket. -/
def exPayload : AppointmentRow :=
  { id := "", doctor_id := "d1", day := "Mon", session := "Morning",
    patient_name := "pat", patient_r4 := "7", duration := "30", type := "checkup",
    other_type_details := none, rank := 0 }

/-- Store holding appointments `a`, `b`, `c` created in order into one
initially empty bucket (so their persisted ranks are 1, 2, 3). -/
def exStore3 : Store :=
  (create_appointment
    (create_appointment (create_appointment emptyStore exPayload "a").2 exPayload "b").2
    exPayload "c").2

/-- A sample practitioner profile submission. -/
def exDoctor : Doctor :=
  { id := "", student_id := "s1", username := "u1", password := "pw", color := "#000000",
    phone := none, country_code := none }

/-- A sample patient payload whose optional secondary identifier is omitted. -/
def exPatient : Patient :=
  { id := "", doctor_id := "d1", name := "Pat", r4 := none }

/-- A sample store with two registered practitioners and one pending
connection request from `d1` towards student id `s2`. -/
def exReqStore : Store :=
  { emptyStore with
    doctors := [{ exDoctor with id := "d1", student_id := "s1" },
                { exDoctor with id := "d2", student_id := "s2" }],
    match_requests := [⟨"rq", "d1", "Doc One", "s2"⟩] }

/-!  General lemmas about the embedded operations.  -/

/-- Folding the SQL MAX accumulator from a `some` start computes `foldl max`. -/
theorem sqlMax_foldl_some (l : List Int) (m : Int) :
    l.foldl (fun acc r =>
      match acc with
      | none => some r
      | some m' => some (max m' r)) (some m) = some (l.foldl max m) := by
  induction l generalizing m with
  | nil => rfl
  | cons x xs ih => simpa using ih (max m x)

/-- SQL MAX of a non-empty column. -/
theorem sqlMax_cons (x : Int) (xs : List Int) : sqlMax (x :: xs) = some (xs.foldl max x) := by
  unfold sqlMax
  simpa using sqlMax_foldl_some xs x

/-- The start value bounds `foldl max` from below. -/
theorem le_foldl_max (x : Int) (xs : List Int) : x ≤ xs.foldl max x := by
  induction xs generalizing x with
  | nil => exact le_refl x
  | cons y ys ih => exact le_trans (le_max_left x y) (ih (max x y))

/-- Every element bounds `foldl max` from below. -/
theorem foldl_max_le (x r : Int) (xs : List Int) (hr : r ∈ xs) : r ≤ xs.foldl max x := by
  induction xs generalizing x with
  | nil => cases hr
  | cons y ys ih =>
    rcases List.mem_cons.mp hr with h | h
    · subst h
      exact le_trans (le_max_right x r) (le_foldl_max _ _)
    · exact ih (max x y) h

/-- `foldl max` is the start value or one of the elements. -/
theorem foldl_max_mem (x : Int) (xs : List Int) : xs.foldl max x = x ∨ xs.foldl max x ∈ xs := by
  induction xs generalizing x with
  | nil => exact Or.inl rfl
  | cons y ys ih =>
    have hfold : (y :: ys).foldl max x = ys.foldl max (max x y) := rfl
    rcases ih (max x y) with h | h
    · rcases max_choice x y with hm | hm
      · exact Or.inl (by rw [hfold, h, hm])
      · refine Or.inr ?_
        rw [hfold, h, hm]
        exact List.mem_cons_self y ys
    · refine Or.inr (List.mem_cons_of_mem y ?_)
      rw [hfold]
      exact h

/-- SQL MAX is NULL exactly on the empty column. -/
theorem sqlMax_eq_none_iff (l : List Int) : sqlMax l = none ↔ l = [] := by
  cases l with
  | nil => simp [sqlMax]
  | cons x xs => simp [sqlMax_cons]

/-- A non-NULL SQL MAX is an element and an upper bound. -/
theorem sqlMax_spec (l : List Int) (m : Int) (h : sqlMax l = some m) :
    m ∈ l ∧ ∀ r ∈ l, r ≤ m := by
  cases l with
  | nil => simp [sqlMax] at h
  | cons x xs =>
    rw [sqlMax_cons] at h
    have hm : xs.foldl max x = m := by injection h
    subst hm
    refine ⟨?_, ?_⟩
    · rcases foldl_max_mem x xs with h' | h'
      · rw [h']
        exact List.mem_cons_self x xs
      · exact List.mem_cons_of_mem x h'
    · intro r hr
      rcases List.mem_cons.mp hr with rfl | hr'
      · exact le_foldl_max _ _
      · exact foldl_max_le _ _ _ hr'

/-- Splitting a character list on `,` never yields the empty list. -/
theorem pySplitChars_ne_nil (l : List Char) : pySplitChars l ≠ [] := by
  cases l with
  | nil => simp [pySplitChars]
  | cons c rest =>
    by_cases hc : c = ','
    · simp [pySplitChars, hc]
    · simp only [pySplitChars, if_neg hc]
      split <;> simp

/-- Python's `split(",")` never yields the empty list. -/
theorem pySplit_ne_nil (s : String) : pySplit s ≠ [] := by
  unfold pySplit
  intro h
  exact pySplitChars_ne_nil s.data (by simpa using h)

/-- Splitting a comma-free character list yields the list itself. -/
theorem pySplitChars_no_comma (l : List Char) (h : ∀ c ∈ l, c ≠ ',') :
    pySplitChars l = [l] := by
  induction l with
  | nil => rfl
  | cons c rest ih =>
    have hc : ¬ c = ',' := h c (List.mem_cons_self c rest)
    simp only [pySplitChars, if_neg hc]
    rw [ih (fun c' hc' => h c' (List.mem_cons_of_mem _ hc'))]

/-- Splitting a comma-free string yields the singleton of that string. -/
theorem pySplit_no_comma (s : String) (h : ∀ c ∈ s.data, c ≠ ',') :
    pySplit s = [s] := by
  unfold pySplit
  rw [pySplitChars_no_comma s.data h]
  cases s
  rfl

/-- Membership through the stable insertion step. -/
theorem mem_insertByRank (a b : AppointmentRow) (l : List AppointmentRow) :
    b ∈ insertByRank a l ↔ b = a ∨ b ∈ l := by
  induction l with
  | nil => simp [insertByRank]
  | cons c rest ih =>
    unfold insertByRank
    split
    · rw [List.mem_cons, ih, List.mem_cons]
      tauto
    · simp [List.mem_cons]

/-- Sorting by rank preserves membership. -/
theorem mem_orderByRank (b : AppointmentRow) (l : List AppointmentRow) :
    b ∈ orderByRank l ↔ b ∈ l := by
  induction l with
  | nil => simp [orderByRank]
  | cons a rest ih => simp [orderByRank, mem_insertByRank, ih]

/-- The blocked-day existence predicate matches exactly the probe row. -/
theorem blocked_match_iff (b : BlockedDayRow) (did day : String) :
    ((b.doctor_id == did && b.day == day) = true) ↔ b = (⟨did, day⟩ : BlockedDayRow) := by
  cases b
  simp [BlockedDayRow.mk.injEq]

/-- The global-block existence predicate matches exactly the probe row. -/
theorem global_match_iff (g : GlobalBlockRow) (did dow s : String) :
    ((g.doctor_id == did && g.day_of_week == dow && g.session == s) = true)
      ↔ g = (⟨did, dow, s⟩ : GlobalBlockRow) := by
  cases g
  simp [GlobalBlockRow.mk.injEq, and_assoc]

/-- `INSERT OR IGNORE` adds exactly the new row, as a set. -/
theorem mem_insertOrIgnoreMatch (rows : List MatchRow) (r m : MatchRow) :
    m ∈ insertOrIgnoreMatch rows r ↔ m ∈ rows ∨ m = r := by
  unfold insertOrIgnoreMatch
  by_cases h : r ∈ rows
  · rw [if_pos h]
    constructor
    · exact Or.inl
    · rintro (hm | rfl)
      · exact hm
      · exact h
  · rw [if_neg h]
    simp

/-- `INSERT OR IGNORE` never introduces a duplicate row. -/
theorem nodup_insertOrIgnoreMatch (rows : List MatchRow) (r : MatchRow) (h : rows.Nodup) :
    (insertOrIgnoreMatch rows r).Nodup := by
  unfold insertOrIgnoreMatch
  by_cases hr : r ∈ rows
  · rwa [if_pos hr]
  · rw [if_neg hr]
    refine List.Nodup.append h (List.nodup_singleton r) ?_
    intro a ha hb
    rw [List.mem_singleton] at hb
    exact hr (hb ▸ ha)

/-- Membership in the resolved matches list is membership in the `matches` table. -/
theorem mem_get_matches_list (store : Store) (did t : String) :
    t ∈ get_matches_list store did ↔ (⟨did, t⟩ : MatchRow) ∈ store.match_rows := by
  unfold get_matches_list
  simp only [List.mem_map, List.mem_filter]
  constructor
  · rintro ⟨m, ⟨hm, hdid⟩, rfl⟩
    cases m with
    | mk mdid mtid =>
      simp only [beq_iff_eq] at hdid
      subst hdid
      exact hm
  · intro hm
    exact ⟨⟨did, t⟩, ⟨hm, by simp⟩, rfl⟩

/-- `posOf` fails exactly on absent elements. -/
theorem posOf_eq_none_iff (ids : List String) (x : String) :
    posOf ids x = none ↔ x ∉ ids := by
  induction ids with
  | nil => simp [posOf]
  | cons i rest ih =>
    by_cases hi : i = x
    · simp [posOf, hi]
    · simp [posOf, hi, ih]
      exact fun _ e => hi e.symm

/-- The reorder loop is a pointwise map of the accumulated rewrite. -/
theorem reorderLoop_eq_map (appts : List AppointmentRow) (ids : List String) (n : Int) :
    reorderLoop appts ids n = appts.map (rankAfter ids n) := by
  induction ids generalizing appts n with
  | nil => exact (List.map_id' appts).symm
  | cons i rest ih =>
    show reorderLoop (setRank appts i n) rest (n + 1) = _
    rw [ih]
    simp only [setRank]
    rw [List.map_map]
    rfl

/-- Rows whose id is not listed are untouched by the reorder rewrite. -/
theorem rankAfter_not_mem (ids : List String) (n : Int) (a : AppointmentRow)
    (h : a.id ∉ ids) : rankAfter ids n a = a := by
  induction ids generalizing n with
  | nil => rfl
  | cons i rest ih =>
    simp only [List.mem_cons, not_or] at h
    show rankAfter rest (n + 1) (if a.id == i then { a with rank := n } else a) = a
    rw [if_neg (by simpa using h.1)]
    exact ih _ h.2

/-- A listed row's rank becomes the loop offset plus its position in the list. -/
theorem rankAfter_pos (ids : List String) (n : Int) (a : AppointmentRow) (k : Nat)
    (hnd : ids.Nodup) (hk : posOf ids a.id = some k) :
    rankAfter ids n a = { a with rank := n + k } := by
  induction ids generalizing n k with
  | nil => cases hk
  | cons i rest ih =>
    rw [List.nodup_cons] at hnd
    show rankAfter rest (n + 1) (if a.id == i then { a with rank := n } else a)
        = { a with rank := n + k }
    by_cases hi : i = a.id
    · have hk0 : k = 0 := by
        simp [posOf, hi] at hk
        omega
      subst hk0
      rw [if_pos (by simpa using hi.symm)]
      have hid : ({ a with rank := n } : AppointmentRow).id ∉ rest := by
        simpa [← hi] using hnd.1
      rw [rankAfter_not_mem rest (n + 1) _ hid]
      simp
    · obtain ⟨k', hk', hkk⟩ : ∃ k', posOf rest a.id = some k' ∧ k' + 1 = k := by
        simpa [posOf, hi] using hk
      rw [if_neg (by simp only [beq_iff_eq]; exact fun e => hi e.symm)]
      rw [ih (n + 1) k' hnd.2 hk']
      have harith : (n + 1) + (k' : Int) = n + (k : Int) := by
        rw [← hkk]
        push_cast
        ring
      rw [harith]

/-- The appointment bucket predicate matches exactly on the triple. -/
theorem appt_bucket_iff (a : AppointmentRow) (d day s : String) :
    ((a.doctor_id == d && a.day == day && a.session == s) = true)
      ↔ (a.doctor_id = d ∧ a.day = day ∧ a.session = s) := by
  simp [and_assoc]

/-- Appending one row extends a bucket's rank column by that row's rank when
the row lies in the bucket, and leaves it unchanged otherwise. -/
theorem bucketRanks_append_one (store : Store) (x : AppointmentRow) (d day s : String) :
    bucketRanks { store with appointments := store.appointments ++ [x] } d day s
      = bucketRanks store d day s
        ++ (if x.doctor_id = d ∧ x.day = day ∧ x.session = s then [x.rank] else []) := by
  unfold bucketRanks
  rw [List.filter_append, List.map_append]
  congr 1
  rw [List.filter_cons, List.filter_nil]
  by_cases hx : x.doctor_id = d ∧ x.day = day ∧ x.session = s
  · rw [if_pos ((appt_bucket_iff x d day s).mpr hx), if_pos hx]
    rfl
  · rw [if_neg (fun hb => hx ((appt_bucket_iff x d day s).mp hb)), if_neg hx]
    rfl

/-- The store produced by `create_appointment`, written as an explicit update. -/
theorem create_appointment_snd (store : Store) (appt : AppointmentRow) (newId : String) :
    (create_appointment store appt newId).2
      = { store with
          appointments := store.appointments
            ++ [{ appt with
                  id := newId,
                  rank := (sqlMax
                    (bucketRanks store appt.doctor_id appt.day appt.session)).getD 0 + 1 }] } :=
  rfl

/-- One creation step into a bucket whose rank column is known: the new row is
appended with the computed rank and the bucket's rank column grows by it. -/
theorem create_into_bucket (store : Store) (appt : AppointmentRow) (newId d day s : String)
    (hd : appt.doctor_id = d) (hday : appt.day = day) (hs : appt.session = s)
    (ranks : List Int) (hranks : bucketRanks store d day s = ranks) (m : Int)
    (hm : (sqlMax ranks).getD 0 + 1 = m) :
    (create_appointment store appt newId).2.appointments
        = store.appointments ++ [{ appt with id := newId, rank := m }]
    ∧ bucketRanks (create_appointment store appt newId).2 d day s = ranks ++ [m] := by
  constructor
  · rw [create_appointment_snd]
    show store.appointments ++ [{ appt with
        id := newId,
        rank := (sqlMax (bucketRanks store appt.doctor_id appt.day appt.session)).getD 0 + 1 }]
      = store.appointments ++ [{ appt with id := newId, rank := m }]
    rw [hd, hday, hs, hranks, hm]
  · rw [create_appointment_snd, bucketRanks_append_one, hranks, if_pos ⟨hd, hday, hs⟩]
    show ranks ++ [(sqlMax (bucketRanks store appt.doctor_id appt.day appt.session)).getD 0 + 1]
        = ranks ++ [m]
    rw [hd, hday, hs, hranks, hm]

/-- C1: `create_appointment` appends the new row with rank `1` when the target
(practitioner, day, session) bucket is empty and rank `m + 1` when `m` is the
maximum rank present in that bucket; consequently three creations into an
initially empty bucket persist ranks 1, 2, 3 in creation order. -/
theorem C1_create_appointment_rank (store : Store) (appt : AppointmentRow) (newId : String) :
    (∃ stored : AppointmentRow,
      (create_appointment store appt newId).2.appointments = store.appointments ++ [stored]
      ∧ (bucketRanks store appt.doctor_id appt.day appt.session = [] → stored.rank = 1)
      ∧ (∀ m : Int, m ∈ bucketRanks store appt.doctor_id appt.day appt.session →
          (∀ r ∈ bucketRanks store appt.doctor_id appt.day appt.session, r ≤ m) →
          stored.rank = m + 1))
    ∧ (∀ (st : Store) (a1 a2 a3 : AppointmentRow) (i1 i2 i3 : String),
        bucketRanks st a1.doctor_id a1.day a1.session = [] →
        a2.doctor_id = a1.doctor_id → a2.day = a1.day → a2.session = a1.session →
        a3.doctor_id = a1.doctor_id → a3.day = a1.day → a3.session = a1.session →
        (create_appointment
            ((create_appointment ((create_appointment st a1 i1).2) a2 i2).2) a3 i3).2.appointments
          = st.appointments
            ++ [{ a1 with id := i1, rank := 1 }, { a2 with id := i2, rank := 2 },
                { a3 with id := i3, rank := 3 }]) := by
  constructor
  · refine ⟨_, rfl, ?_, ?_⟩
    · intro hempty
      show (sqlMax (bucketRanks store appt.doctor_id appt.day appt.session)).getD 0 + 1 = 1
      rw [hempty]
      decide
    · intro m hm hub
      show (sqlMax (bucketRanks store appt.doctor_id appt.day appt.session)).getD 0 + 1 = m + 1
      cases hs : sqlMax (bucketRanks store appt.doctor_id appt.day appt.session) with
      | none =>
        rw [(sqlMax_eq_none_iff _).mp hs] at hm
        cases hm
      | some m' =>
        obtain ⟨hmem, hub'⟩ := sqlMax_spec _ _ hs
        have hmm : m' = m := le_antisymm (hub m' hmem) (hub' m hm)
        rw [hmm]
        rfl
  · intro st a1 a2 a3 i1 i2 i3 hempty h2d h2day h2s h3d h3day h3s
    obtain ⟨ha1, hb1⟩ := create_into_bucket st a1 i1 a1.doctor_id a1.day a1.session
      rfl rfl rfl [] hempty 1 (by decide)
    obtain ⟨ha2, hb2⟩ := create_into_bucket _ a2 i2 a1.doctor_id a1.day a1.session
      h2d h2day h2s [1] hb1 2 (by decide)
    obtain ⟨ha3, hb3⟩ := create_into_bucket _ a3 i3 a1.doctor_id a1.day a1.session
      h3d h3day h3s [1, 2] hb2 3 (by decide)
    rw [ha3, ha2, ha1]
    simp

/-- Witness for C1: the three concrete creations building `exStore3` start from
an empty bucket and persist ranks 1, 2, 3 in creation order. -/
theorem C1_create_appointment_rank_witness :
    bucketRanks emptyStore exPayload.doctor_id exPayload.day exPayload.session = []
    ∧ exStore3.appointments
        = [{ exPayload with id := "a", rank := 1 }, { exPayload with id := "b", rank := 2 },
           { exPayload with id := "c", rank := 3 }] := by
  refine ⟨by decide, ?_⟩
  have h := (C1_create_appointment_rank emptyStore exPayload "x").2 emptyStore
    exPayload exPayload exPayload "a" "b" "c" (by decide) rfl rfl rfl rfl rfl rfl
  rw [show exStore3.appointments
      = emptyStore.appointments
        ++ [{ exPayload with id := "a", rank := 1 }, { exPayload with id := "b", rank := 2 },
            { exPayload with id := "c", rank := 3 }] from h]
  rfl

/-- C2 counterexample: creating an appointment submitted with rank 5 into the
empty store returns rank 5 to the caller while persisting rank 1, so the
returned record is not the persisted record and the returned rank is the
submitted one, not the computed `new_rank`. -/
theorem C2_counterexample_returned_rank :
    ((create_appointment emptyStore { exPayload with rank := 5 } "i1").1.rank = 5)
    ∧ ((create_appointment emptyStore { exPayload with rank := 5 } "i1").2.appointments.map
        (fun a => a.rank) = [1]) := by
  decide

/-- C2 (amended): the returned record carries the generated id and agrees with
the persisted record on every field except rank: the persisted rank is the
computed `new_rank`, while the returned rank is the caller-submitted rank. -/
theorem C2_create_appointment_return (store : Store) (appt : AppointmentRow) (newId : String) :
    ∃ returned stored : AppointmentRow,
      create_appointment store appt newId
          = (returned, { store with appointments := store.appointments ++ [stored] })
      ∧ returned.id = newId ∧ stored.id = newId
      ∧ returned.doctor_id = appt.doctor_id ∧ stored.doctor_id = appt.doctor_id
      ∧ returned.day = appt.day ∧ stored.day = appt.day
      ∧ returned.session = appt.session ∧ stored.session = appt.session
      ∧ returned.patient_name = appt.patient_name ∧ stored.patient_name = appt.patient_name
      ∧ returned.patient_r4 = appt.patient_r4 ∧ stored.patient_r4 = appt.patient_r4
      ∧ returned.duration = appt.duration ∧ stored.duration = appt.duration
      ∧ returned.type = appt.type ∧ stored.type = appt.type
      ∧ returned.other_type_details = appt.other_type_details
      ∧ stored.other_type_details = appt.other_type_details
      ∧ returned.rank = appt.rank
      ∧ stored.rank
          = (sqlMax (bucketRanks store appt.doctor_id appt.day appt.session)).getD 0 + 1 :=
  ⟨_, _, rfl, rfl, rfl, rfl, rfl, rfl, rfl, rfl, rfl, rfl, rfl, rfl, rfl, rfl, rfl, rfl, rfl,
    rfl, rfl, rfl, rfl⟩

/-- C3: `reorder_appointments` with a duplicate-free id list rewrites each
listed appointment's rank to its zero-based position in the list and leaves
unlisted appointments untouched; reordering the bucket of `exStore3` (rows a,
b, c with ranks 1, 2, 3) to [c, a, b] sets ranks a = 1, b = 2, c = 0, and the
subsequent `get_appointments` call returns them in c, a, b order. -/
theorem C3_reorder_appointments (store : Store) (ids : List String) (hnd : ids.Nodup) :
    ((reorder_appointments store ids).appointments
      = store.appointments.map (fun a =>
          match posOf ids a.id with
          | some k => { a with rank := (k : Int) }
          | none => a))
    ∧ ((reorder_appointments exStore3 ["c", "a", "b"]).appointments.map
          (fun a => (a.id, a.rank)) = [("a", 1), ("b", 2), ("c", 0)])
    ∧ ((get_appointments (reorder_appointments exStore3 ["c", "a", "b"]) "d1").map
          (fun a => a.id) = ["c", "a", "b"]) := by
  refine ⟨?_, by decide, by decide⟩
  show reorderLoop store.appointments ids 0 = _
  rw [reorderLoop_eq_map]
  congr 1
  funext a
  cases hk : posOf ids a.id with
  | none => exact rankAfter_not_mem ids 0 a ((posOf_eq_none_iff ids a.id).mp hk)
  | some k =>
    rw [rankAfter_pos ids 0 a k hnd hk, zero_add]

/-- Witness for C3: the concrete reorder of `exStore3` to [c, a, b], obtained
from the general theorem with a duplicate-free concrete id list. -/
theorem C3_reorder_appointments_witness :
    (["c", "a", "b"] : List String).Nodup
    ∧ (get_appointments (reorder_appointments exStore3 ["c", "a", "b"]) "d1").map
        (fun a => a.id) = ["c", "a", "b"] :=
  ⟨by decide, (C3_reorder_appointments exStore3 ["c", "a", "b"] (by decide)).2.2⟩

/-- C4: `move_appointment` rewrites only the day and session fields of the
rows carrying the given id (to the given values), preserves every other field
of every appointment — in particular rank — leaves rows with other ids fully
unchanged, and leaves every other table of the store unchanged. -/
theorem C4_move_appointment (store : Store) (appt_id day session : String) :
    (move_appointment store appt_id day session).doctors = store.doctors
    ∧ (move_appointment store appt_id day session).match_rows = store.match_rows
    ∧ (move_appointment store appt_id day session).match_requests = store.match_requests
    ∧ (move_appointment store appt_id day session).patients = store.patients
    ∧ (move_appointment store appt_id day session).blocked_days = store.blocked_days
    ∧ (move_appointment store appt_id day session).global_blocks = store.global_blocks
    ∧ ∃ f : AppointmentRow → AppointmentRow,
        (move_appointment store appt_id day session).appointments = store.appointments.map f
        ∧ ∀ a : AppointmentRow,
            (f a).id = a.id ∧ (f a).doctor_id = a.doctor_id
            ∧ (f a).patient_name = a.patient_name ∧ (f a).patient_r4 = a.patient_r4
            ∧ (f a).duration = a.duration ∧ (f a).type = a.type
            ∧ (f a).other_type_details = a.other_type_details ∧ (f a).rank = a.rank
            ∧ (a.id = appt_id → (f a).day = day ∧ (f a).session = session)
            ∧ (a.id ≠ appt_id → f a = a) := by
  refine ⟨rfl, rfl, rfl, rfl, rfl, rfl, _, rfl, ?_⟩
  intro a
  by_cases h : a.id = appt_id
  · have hb : (a.id == appt_id) = true := by simpa using h
    refine ⟨?_, ?_, ?_, ?_, ?_, ?_, ?_, ?_, ?_, ?_⟩ <;> simp [hb, h]
  · have hb : (a.id == appt_id) = false := by simpa using h
    refine ⟨?_, ?_, ?_, ?_, ?_, ?_, ?_, ?_, ?_, ?_⟩ <;> simp [hb, h]

/-- Witness for C4: moving row `a` of `exStore3` to (Tue, Afternoon) changes
exactly its day and session, keeps its rank 1, and leaves rows b and c intact. -/
theorem C4_move_appointment_witness :
    (move_appointment exStore3 "a" "Tue" "Afternoon").appointments.map
        (fun x => (x.id, x.day, x.session, x.rank))
      = [("a", "Tue", "Afternoon", 1), ("b", "Mon", "Morning", 2), ("c", "Mon", "Morning", 3)] := by
  obtain ⟨-, -, -, -, -, -, f, hmap, hf⟩ := C4_move_appointment exStore3 "a" "Tue" "Afternoon"
  have e3 : exStore3.appointments
      = [{ exPayload with id := "a", rank := 1 }, { exPayload with id := "b", rank := 2 },
         { exPayload with id := "c", rank := 3 }] := by decide
  rw [hmap, e3]
  obtain ⟨h1id, -, -, -, -, -, -, h1rank, h1move, -⟩ := hf { exPayload with id := "a", rank := 1 }
  obtain ⟨h1day, h1sess⟩ := h1move rfl
  have h2 : f { exPayload with id := "b", rank := 2 } = { exPayload with id := "b", rank := 2 } :=
    (hf _).2.2.2.2.2.2.2.2.2 (by decide)
  have h3 : f { exPayload with id := "c", rank := 3 } = { exPayload with id := "c", rank := 3 } :=
    (hf _).2.2.2.2.2.2.2.2.2 (by decide)
  simp only [List.map_cons, List.map_nil, h2, h3, h1id, h1day, h1sess, h1rank]
  decide

/-- C5: `accept_match` fails with NotFound exactly when no stored request has
the given id (and then produces no new store); when the request exists it
deletes the request row in every case and leaves all unrelated tables
untouched; when the stored student id does not resolve to a practitioner no
connection row is inserted, and when it resolves to `target` the resulting
`matches` table is, as a duplicate-free set, the old one plus exactly the two
symmetric rows (target, from) and (from, target). -/
theorem C5_accept_match (store : Store) (req_id : String) (hnd : store.match_rows.Nodup) :
    (accept_match store req_id = .error .NotFound ↔ ∀ r ∈ store.match_requests, r.id ≠ req_id)
    ∧ (∀ req, store.match_requests.find? (fun r => r.id == req_id) = some req →
        ∃ st : Store, accept_match store req_id = .ok st
          ∧ st.doctors = store.doctors ∧ st.patients = store.patients
          ∧ st.appointments = store.appointments ∧ st.blocked_days = store.blocked_days
          ∧ st.global_blocks = store.global_blocks
          ∧ st.match_requests = store.match_requests.filter (fun r => !(r.id == req_id))
          ∧ ((∀ d ∈ store.doctors, d.student_id ≠ req.to_student_id) →
              st.match_rows = store.match_rows)
          ∧ (∀ target, store.doctors.find? (fun d => d.student_id == req.to_student_id)
                = some target →
              st.match_rows.Nodup
              ∧ ∀ m : MatchRow, m ∈ st.match_rows ↔
                  m ∈ store.match_rows ∨ m = ⟨target.id, req.from_id⟩
                    ∨ m = ⟨req.from_id, target.id⟩)) := by
  constructor
  · unfold accept_match
    cases hfind : store.match_requests.find? (fun r => r.id == req_id) with
    | none =>
      simp only [hfind]
      refine iff_of_true trivial ?_
      intro r hr hrid
      exact (List.find?_eq_none.mp hfind r hr) (by simpa using hrid)
    | some req =>
      simp only [hfind]
      apply iff_of_false (by simp)
      intro hall
      exact hall req (List.mem_of_find?_eq_some hfind) (by simpa using List.find?_some hfind)
  · intro req hreq
    cases hdoc : store.doctors.find? (fun d => d.student_id == req.to_student_id) with
    | none =>
      have hacc : accept_match store req_id
          = .ok { store with
                  match_requests := store.match_requests.filter (fun r => !(r.id == req_id)) } := by
        unfold accept_match
        simp only [hreq, hdoc]
      refine ⟨_, hacc, rfl, rfl, rfl, rfl, rfl, rfl, fun _ => rfl, ?_⟩
      intro target htarget
      cases htarget
    | some target =>
      have hacc : accept_match store req_id
          = .ok { store with
                  match_rows := insertOrIgnoreMatch
                    (insertOrIgnoreMatch store.match_rows ⟨target.id, req.from_id⟩)
                    ⟨req.from_id, target.id⟩,
                  match_requests := store.match_requests.filter (fun r => !(r.id == req_id)) } := by
        unfold accept_match
        simp only [hreq, hdoc]
      refine ⟨_, hacc, rfl, rfl, rfl, rfl, rfl, rfl, ?_, ?_⟩
      · intro hall
        exact absurd (by simpa using List.find?_some hdoc)
          (hall target (List.mem_of_find?_eq_some hdoc))
      · intro target' htarget'
        have htt : target = target' := by injection htarget'
        subst htt
        constructor
        · exact nodup_insertOrIgnoreMatch _ _ (nodup_insertOrIgnoreMatch _ _ hnd)
        · intro m
          show m ∈ insertOrIgnoreMatch
              (insertOrIgnoreMatch store.match_rows ⟨target.id, req.from_id⟩)
              ⟨req.from_id, target.id⟩ ↔ _
          rw [mem_insertOrIgnoreMatch, mem_insertOrIgnoreMatch]
          tauto

/-- Witness for C5: accepting the pending request of `exReqStore` succeeds,
creates both symmetric connection rows without duplicates, and deletes the
request. -/
theorem C5_accept_match_witness :
    accept_match exReqStore "rq" ≠ .error .NotFound
    ∧ ∃ st : Store, accept_match exReqStore "rq" = .ok st
        ∧ (⟨"d2", "d1"⟩ : MatchRow) ∈ st.match_rows
        ∧ (⟨"d1", "d2"⟩ : MatchRow) ∈ st.match_rows
        ∧ st.match_rows.Nodup ∧ st.match_requests = [] := by
  obtain ⟨hiff, hsucc⟩ := C5_accept_match exReqStore "rq" (by decide)
  obtain ⟨st, hok, -, -, -, -, -, hreqs, -, htarget⟩ :=
    hsucc ⟨"rq", "d1", "Doc One", "s2"⟩ (by decide)
  obtain ⟨hnodup, hmem⟩ :=
    htarget { exDoctor with id := "d2", student_id := "s2" } (by decide)
  refine ⟨?_, st, hok, ?_, ?_, hnodup, ?_⟩
  · rw [hok]
    simp
  · exact (hmem _).mpr (Or.inr (Or.inl rfl))
  · exact (hmem _).mpr (Or.inr (Or.inr rfl))
  · rw [hreqs]
    decide

/-- C6: `register` fails with Conflict exactly when some stored practitioner
already carries the submitted student id — producing no new store, so the
first registrant's row is untouched and remains queryable in the unchanged
store — and otherwise persists and returns the profile with the generated id
and the supplied random color. -/
theorem C6_register (store : Store) (doctor : Doctor) (newId newColor : String) :
    (register store doctor newId newColor = .error .Conflict
      ↔ ∃ d ∈ store.doctors, d.student_id = doctor.student_id)
    ∧ ((∀ d ∈ store.doctors, d.student_id ≠ doctor.student_id) →
        register store doctor newId newColor
          = .ok ({ doctor with id := newId, color := newColor },
              { store with
                doctors := store.doctors ++ [{ doctor with id := newId, color := newColor }] })) := by
  constructor
  · unfold register
    by_cases h : (store.doctors.any fun d => d.student_id == doctor.student_id) = true
    · rw [if_pos h]
      obtain ⟨d, hd, hds⟩ := List.any_eq_true.mp h
      exact iff_of_true rfl ⟨d, hd, by simpa using hds⟩
    · rw [if_neg h]
      apply iff_of_false (by simp)
      rintro ⟨d, hd, hds⟩
      exact h (List.any_eq_true.mpr ⟨d, hd, by simpa using hds⟩)
  · intro hall
    unfold register
    have h : ¬ (store.doctors.any (fun d => d.student_id == doctor.student_id) = true) := by
      intro hany
      obtain ⟨d, hd, hds⟩ := List.any_eq_true.mp hany
      exact hall d hd (by simpa using hds)
    rw [if_neg h]

/-- Witness for C6: registering into the empty store succeeds with the
generated id and color, and re-registering the same student id into the
resulting store fails with Conflict. -/
theorem C6_register_witness :
    register emptyStore exDoctor "id1" "#ffffff"
      = .ok ({ exDoctor with id := "id1", color := "#ffffff" },
          { emptyStore with
            doctors := emptyStore.doctors ++ [{ exDoctor with id := "id1", color := "#ffffff" }] })
    ∧ register { emptyStore with doctors := [{ exDoctor with id := "id1", color := "#ffffff" }] }
        exDoctor "id2" "#000000" = .error .Conflict := by
  constructor
  · exact (C6_register emptyStore exDoctor "id1" "#ffffff").2
      (by intro d hd; simp [emptyStore] at hd)
  · exact (C6_register _ exDoctor "id2" "#000000").1.mpr
      ⟨{ exDoctor with id := "id1", color := "#ffffff" }, by simp, rfl⟩

/-- C7: `login` fails with Unauthorized exactly when no stored practitioner
carries the given (student id, password) pair; on success the returned profile
is a stored practitioner with exactly that pair, and the returned connection
list holds precisely the target ids stored for that practitioner in the
`matches` table. -/
theorem C7_login (store : Store) (student_id password : String) :
    (login store student_id password = .error .Unauthorized
      ↔ ∀ d ∈ store.doctors, ¬(d.student_id = student_id ∧ d.password = password))
    ∧ (∀ (d : Doctor) (ms : List String),
        login store student_id password = .ok (d, ms) →
        d ∈ store.doctors ∧ d.student_id = student_id ∧ d.password = password
        ∧ ms = get_matches_list store d.id
        ∧ ∀ t : String, t ∈ ms ↔ (⟨d.id, t⟩ : MatchRow) ∈ store.match_rows) := by
  constructor
  · unfold login
    cases hfind : store.doctors.find?
        (fun d => d.student_id == student_id && d.password == password) with
    | none =>
      simp only [hfind]
      refine iff_of_true trivial ?_
      intro d hd hdp
      have hnp := List.find?_eq_none.mp hfind d hd
      exact hnp (by simp [hdp.1, hdp.2])
    | some d0 =>
      simp only [hfind]
      apply iff_of_false (by simp)
      intro hall
      have hp := List.find?_some hfind
      simp only [Bool.and_eq_true, beq_iff_eq] at hp
      exact hall d0 (List.mem_of_find?_eq_some hfind) hp
  · intro d ms hok
    unfold login at hok
    cases hfind : store.doctors.find?
        (fun d => d.student_id == student_id && d.password == password) with
    | none =>
      rw [hfind] at hok
      exact absurd hok (by simp)
    | some d0 =>
      rw [hfind] at hok
      simp only [Except.ok.injEq, Prod.mk.injEq] at hok
      obtain ⟨hd0, hms⟩ := hok
      subst hms
      subst hd0
      have hp := List.find?_some hfind
      simp only [Bool.and_eq_true, beq_iff_eq] at hp
      refine ⟨List.mem_of_find?_eq_some hfind, hp.1, hp.2, rfl, ?_⟩
      intro t
      exact mem_get_matches_list store _ t

/-- Witness for C7: in `exReqStore`, a wrong password is Unauthorized and the
correct pair returns practitioner d1 with an empty connection list. -/
theorem C7_login_witness :
    login exReqStore "s1" "wrong" = .error .Unauthorized
    ∧ ((⟨"d1", "x"⟩ : MatchRow) ∈ exReqStore.match_rows ↔ "x" ∈ ([] : List String)) := by
  constructor
  · exact (C7_login exReqStore "s1" "wrong").1.mpr (by decide)
  · have h := (C7_login exReqStore "s1" "pw").2 { exDoctor with id := "d1", student_id := "s1" }
      [] rfl
    exact (h.2.2.2.2 "x").symm

/-- `find?` skips a prefix on which the predicate fails everywhere. -/
theorem find?_append_of_forall_neg {α : Type} (p : α → Bool) (l1 l2 : List α)
    (h : ∀ x ∈ l1, ¬ p x = true) : (l1 ++ l2).find? p = l2.find? p := by
  induction l1 with
  | nil => rfl
  | cons x xs ih =>
    rw [List.cons_append, List.find?_cons_of_neg _ (h x (List.mem_cons_self x xs))]
    exact ih (fun y hy => h y (List.mem_cons_of_mem x hy))

/-- C8: create/read round trips. Registering a fresh student id with a fresh
generated id, then reading back with `get_me`, returns the submitted profile
field-for-field with only the generated id and the assigned random color
substituted; adding a patient then listing that practitioner's patients
appends exactly the submitted fields with the generated id and with an
omitted secondary identifier stored as the empty string; creating an
appointment then listing that doctor's appointments returns a stored row
equal to the submission on every field except the generated id and the
computed rank. -/
theorem C8_round_trip :
    (∀ (store : Store) (doctor : Doctor) (newId newColor : String),
      (∀ d ∈ store.doctors, d.student_id ≠ doctor.student_id) →
      (∀ d ∈ store.doctors, d.id ≠ newId) →
      ∃ st : Store,
        register store doctor newId newColor
          = .ok ({ doctor with id := newId, color := newColor }, st)
        ∧ get_me st newId
          = .ok ({ doctor with id := newId, color := newColor }, get_matches_list st newId))
    ∧ (∀ (store : Store) (p : Patient) (newId : String),
        (add_patient store p newId).1 = { p with id := newId }
        ∧ get_patients (add_patient store p newId).2 p.doctor_id
          = get_patients store p.doctor_id ++ [⟨newId, p.doctor_id, p.name, p.r4.getD ""⟩]
        ∧ (p.r4 = none → (⟨newId, p.doctor_id, p.name, ""⟩ : PatientRow)
            ∈ get_patients (add_patient store p newId).2 p.doctor_id))
    ∧ (∀ (store : Store) (appt : AppointmentRow) (newId : String),
        (∀ c ∈ appt.doctor_id.data, c ≠ ',') →
        ∃ stored : AppointmentRow,
          (create_appointment store appt newId).2.appointments
            = store.appointments ++ [stored]
          ∧ stored ∈ get_appointments (create_appointment store appt newId).2 appt.doctor_id
          ∧ stored.id = newId ∧ stored.doctor_id = appt.doctor_id ∧ stored.day = appt.day
          ∧ stored.session = appt.session ∧ stored.patient_name = appt.patient_name
          ∧ stored.patient_r4 = appt.patient_r4 ∧ stored.duration = appt.duration
          ∧ stored.type = appt.type
          ∧ stored.other_type_details = appt.other_type_details) := by
  refine ⟨?_, ?_, ?_⟩
  · intro store doctor newId newColor hsid hfresh
    have hok : register store doctor newId newColor
        = .ok ({ doctor with id := newId, color := newColor },
            { store with
              doctors := store.doctors ++ [{ doctor with id := newId, color := newColor }] }) := by
      unfold register
      rw [if_neg ?hne]
      case hne =>
        intro hany
        obtain ⟨d, hd, hds⟩ := List.any_eq_true.mp hany
        exact hsid d hd (by simpa using hds)
    refine ⟨_, hok, ?_⟩
    unfold get_me
    have hfind : (store.doctors
          ++ [{ doctor with id := newId, color := newColor }]).find? (fun d => d.id == newId)
        = some { doctor with id := newId, color := newColor } := by
      rw [find?_append_of_forall_neg _ _ _ (fun d hd => by simpa using hfresh d hd)]
      exact List.find?_cons_of_pos _ (by simp)
    rw [show ({ store with
          doctors := store.doctors
            ++ [{ doctor with id := newId, color := newColor }] } : Store).doctors
        = store.doctors ++ [{ doctor with id := newId, color := newColor }] from rfl]
    rw [hfind]
  · intro store p newId
    refine ⟨rfl, ?_, ?_⟩
    · unfold get_patients
      show (store.patients ++ ([⟨newId, p.doctor_id, p.name, p.r4.getD ""⟩] : List PatientRow)).filter
          (fun q : PatientRow => q.doctor_id == p.doctor_id) = _
      rw [List.filter_append]
      congr 1
      rw [List.filter_cons, List.filter_nil, if_pos (by simp)]
    · intro hr4
      unfold get_patients
      apply List.mem_filter.mpr
      constructor
      · exact List.mem_append_right _ (by simp [hr4])
      · simp
  · intro store appt newId hnc
    refine ⟨{ appt with
        id := newId,
        rank := (sqlMax (bucketRanks store appt.doctor_id appt.day appt.session)).getD 0 + 1 },
      rfl, ?_, rfl, rfl, rfl, rfl, rfl, rfl, rfl, rfl, rfl⟩
    unfold get_appointments
    rw [pySplit_no_comma _ hnc]
    rw [if_neg (by simp)]
    rw [mem_orderByRank]
    apply List.mem_filter.mpr
    refine ⟨?_, by simp⟩
    exact List.mem_append_right _ (by simp)

/-- Witness for C8: the three concrete create/read pairs on the empty store. -/
theorem C8_round_trip_witness :
    (∃ st : Store, register emptyStore exDoctor "id1" "#abcdef"
        = .ok ({ exDoctor with id := "id1", color := "#abcdef" }, st)
      ∧ get_me st "id1"
        = .ok ({ exDoctor with id := "id1", color := "#abcdef" }, get_matches_list st "id1"))
    ∧ (⟨"p1", "d1", "Pat", ""⟩ : PatientRow)
        ∈ get_patients (add_patient emptyStore exPatient "p1").2 "d1"
    ∧ ∃ stored : AppointmentRow,
        (create_appointment emptyStore exPayload "a1").2.appointments
          = emptyStore.appointments ++ [stored]
        ∧ stored ∈ get_appointments (create_appointment emptyStore exPayload "a1").2 "d1" := by
  obtain ⟨h1, h2, h3⟩ := C8_round_trip
  refine ⟨?_, ?_, ?_⟩
  · exact h1 emptyStore exDoctor "id1" "#abcdef"
      (by intro d hd; simp [emptyStore] at hd) (by intro d hd; simp [emptyStore] at hd)
  · exact (h2 emptyStore exPatient "p1").2.2 rfl
  · obtain ⟨stored, ha, hb, -⟩ := h3 emptyStore exPayload "a1" (by decide)
    exact ⟨stored, ha, hb⟩

/-- Toggling an absent (doctor, day) pair inserts it at the end. -/
theorem toggle_blocked_day_absent (store : Store) (did day : String)
    (h : (⟨did, day⟩ : BlockedDayRow) ∉ store.blocked_days) :
    (toggle_blocked_day store did day).1.blocked_days = store.blocked_days ++ [⟨did, day⟩] := by
  unfold toggle_blocked_day
  have hany : ¬ ((store.blocked_days.any fun b => b.doctor_id == did && b.day == day) = true) := by
    intro hany
    obtain ⟨b, hb, hpred⟩ := List.any_eq_true.mp hany
    exact h ((blocked_match_iff b did day).mp hpred ▸ hb)
  rw [if_neg hany]

/-- Toggling a present (doctor, day) pair deletes exactly it. -/
theorem toggle_blocked_day_present (store : Store) (did day : String)
    (h : (⟨did, day⟩ : BlockedDayRow) ∈ store.blocked_days) :
    ∀ b : BlockedDayRow,
      b ∈ (toggle_blocked_day store did day).1.blocked_days
        ↔ (b ∈ store.blocked_days ∧ b ≠ ⟨did, day⟩) := by
  unfold toggle_blocked_day
  have hany : (store.blocked_days.any fun b => b.doctor_id == did && b.day == day) = true :=
    List.any_eq_true.mpr ⟨_, h, (blocked_match_iff _ did day).mpr rfl⟩
  rw [if_pos hany]
  intro b
  show b ∈ store.blocked_days.filter (fun b => !(b.doctor_id == did && b.day == day)) ↔ _
  rw [List.mem_filter]
  constructor
  · rintro ⟨hb, hpred⟩
    refine ⟨hb, fun heq => ?_⟩
    rw [heq, (blocked_match_iff _ did day).mpr rfl] at hpred
    exact absurd hpred (by simp)
  · rintro ⟨hb, hne⟩
    refine ⟨hb, ?_⟩
    cases hx : (b.doctor_id == did && b.day == day) with
    | false => rfl
    | true => exact absurd ((blocked_match_iff b did day).mp hx) hne

/-- Toggling an absent (doctor, weekday, session) triple inserts it at the end. -/
theorem toggle_global_block_absent (store : Store) (did dow s : String)
    (h : (⟨did, dow, s⟩ : GlobalBlockRow) ∉ store.global_blocks) :
    (toggle_global_block store did dow s).1.global_blocks
      = store.global_blocks ++ [⟨did, dow, s⟩] := by
  unfold toggle_global_block
  have hany : ¬ ((store.global_blocks.any
      fun g => g.doctor_id == did && g.day_of_week == dow && g.session == s) = true) := by
    intro hany
    obtain ⟨g, hg, hpred⟩ := List.any_eq_true.mp hany
    exact h ((global_match_iff g did dow s).mp hpred ▸ hg)
  rw [if_neg hany]

/-- Toggling a present (doctor, weekday, session) triple deletes exactly it. -/
theorem toggle_global_block_present (store : Store) (did dow s : String)
    (h : (⟨did, dow, s⟩ : GlobalBlockRow) ∈ store.global_blocks) :
    ∀ g : GlobalBlockRow,
      g ∈ (toggle_global_block store did dow s).1.global_blocks
        ↔ (g ∈ store.global_blocks ∧ g ≠ ⟨did, dow, s⟩) := by
  unfold toggle_global_block
  have hany : (store.global_blocks.any
      fun g => g.doctor_id == did && g.day_of_week == dow && g.session == s) = true :=
    List.any_eq_true.mpr ⟨_, h, (global_match_iff _ did dow s).mpr rfl⟩
  rw [if_pos hany]
  intro g
  show g ∈ store.global_blocks.filter
      (fun g => !(g.doctor_id == did && g.day_of_week == dow && g.session == s)) ↔ _
  rw [List.mem_filter]
  constructor
  · rintro ⟨hg, hpred⟩
    refine ⟨hg, fun heq => ?_⟩
    rw [heq, (global_match_iff _ did dow s).mpr rfl] at hpred
    exact absurd hpred (by simp)
  · rintro ⟨hg, hne⟩
    refine ⟨hg, ?_⟩
    cases hx : (g.doctor_id == did && g.day_of_week == dow && g.session == s) with
    | false => rfl
    | true => exact absurd ((global_match_iff g did dow s).mp hx) hne

/-- C9: each toggle inserts the pair when absent and deletes it when present,
and toggling the same (practitioner, day) twice restores the blocked-day set
to its original membership; the same holds for `toggle_global_block` on
(practitioner, weekday, session). -/
theorem C9_toggle_pair (store : Store) (doctor_id day day_of_week session : String) :
    (∀ b : BlockedDayRow,
      b ∈ (toggle_blocked_day (toggle_blocked_day store doctor_id day).1
            doctor_id day).1.blocked_days
        ↔ b ∈ store.blocked_days)
    ∧ ((⟨doctor_id, day⟩ : BlockedDayRow) ∉ store.blocked_days →
        (toggle_blocked_day store doctor_id day).1.blocked_days
          = store.blocked_days ++ [⟨doctor_id, day⟩])
    ∧ ((⟨doctor_id, day⟩ : BlockedDayRow) ∈ store.blocked_days →
        ∀ b : BlockedDayRow,
          b ∈ (toggle_blocked_day store doctor_id day).1.blocked_days
            ↔ (b ∈ store.blocked_days ∧ b ≠ ⟨doctor_id, day⟩))
    ∧ (∀ g : GlobalBlockRow,
        g ∈ (toggle_global_block (toggle_global_block store doctor_id day_of_week session).1
              doctor_id day_of_week session).1.global_blocks
          ↔ g ∈ store.global_blocks)
    ∧ ((⟨doctor_id, day_of_week, session⟩ : GlobalBlockRow) ∉ store.global_blocks →
        (toggle_global_block store doctor_id day_of_week session).1.global_blocks
          = store.global_blocks ++ [⟨doctor_id, day_of_week, session⟩])
    ∧ ((⟨doctor_id, day_of_week, session⟩ : GlobalBlockRow) ∈ store.global_blocks →
        ∀ g : GlobalBlockRow,
          g ∈ (toggle_global_block store doctor_id day_of_week session).1.global_blocks
            ↔ (g ∈ store.global_blocks ∧ g ≠ ⟨doctor_id, day_of_week, session⟩)) := by
  refine ⟨?_, toggle_blocked_day_absent store doctor_id day,
    toggle_blocked_day_present store doctor_id day, ?_,
    toggle_global_block_absent store doctor_id day_of_week session,
    toggle_global_block_present store doctor_id day_of_week session⟩
  · intro b
    by_cases hmem : (⟨doctor_id, day⟩ : BlockedDayRow) ∈ store.blocked_days
    · have h1 := toggle_blocked_day_present store doctor_id day hmem
      have hrow : (⟨doctor_id, day⟩ : BlockedDayRow)
          ∉ (toggle_blocked_day store doctor_id day).1.blocked_days := by
        intro hc
        exact absurd rfl ((h1 _).mp hc).2
      rw [toggle_blocked_day_absent _ doctor_id day hrow, List.mem_append, List.mem_singleton, h1 b]
      by_cases hb : b = (⟨doctor_id, day⟩ : BlockedDayRow)
      · simp [hb, hmem]
      · simp [hb]
    · have h1 := toggle_blocked_day_absent store doctor_id day hmem
      have hrow : (⟨doctor_id, day⟩ : BlockedDayRow)
          ∈ (toggle_blocked_day store doctor_id day).1.blocked_days := by
        rw [h1]
        exact List.mem_append_right _ (by simp)
      rw [toggle_blocked_day_present _ doctor_id day hrow b, h1, List.mem_append,
        List.mem_singleton]
      constructor
      · rintro ⟨hor, hne⟩
        rcases hor with h | h
        · exact h
        · exact absurd h hne
      · intro hb
        exact ⟨Or.inl hb, fun heq => hmem (heq ▸ hb)⟩
  · intro g
    by_cases hmem : (⟨doctor_id, day_of_week, session⟩ : GlobalBlockRow) ∈ store.global_blocks
    · have h1 := toggle_global_block_present store doctor_id day_of_week session hmem
      have hrow : (⟨doctor_id, day_of_week, session⟩ : GlobalBlockRow)
          ∉ (toggle_global_block store doctor_id day_of_week session).1.global_blocks := by
        intro hc
        exact absurd rfl ((h1 _).mp hc).2
      rw [toggle_global_block_absent _ doctor_id day_of_week session hrow, List.mem_append,
        List.mem_singleton, h1 g]
      by_cases hg : g = (⟨doctor_id, day_of_week, session⟩ : GlobalBlockRow)
      · simp [hg, hmem]
      · simp [hg]
    · have h1 := toggle_global_block_absent store doctor_id day_of_week session hmem
      have hrow : (⟨doctor_id, day_of_week, session⟩ : GlobalBlockRow)
          ∈ (toggle_global_block store doctor_id day_of_week session).1.global_blocks := by
        rw [h1]
        exact List.mem_append_right _ (by simp)
      rw [toggle_global_block_present _ doctor_id day_of_week session hrow g, h1,
        List.mem_append, List.mem_singleton]
      constructor
      · rintro ⟨hor, hne⟩
        rcases hor with h | h
        · exact h
        · exact absurd h hne
      · intro hg
        exact ⟨Or.inl hg, fun heq => hmem (heq ▸ hg)⟩

/-- Witness for C9: on the empty store, the double toggle restores the empty
blocked-day set and the single toggles insert the concrete rows. -/
theorem C9_toggle_pair_witness :
    ((⟨"d1", "Mon"⟩ : BlockedDayRow)
        ∈ (toggle_blocked_day (toggle_blocked_day emptyStore "d1" "Mon").1
            "d1" "Mon").1.blocked_days
      ↔ (⟨"d1", "Mon"⟩ : BlockedDayRow) ∈ emptyStore.blocked_days)
    ∧ (toggle_blocked_day emptyStore "d1" "Mon").1.blocked_days
        = emptyStore.blocked_days ++ [⟨"d1", "Mon"⟩]
    ∧ (toggle_global_block emptyStore "d1" "Mon" "Morning").1.global_blocks
        = emptyStore.global_blocks ++ [⟨"d1", "Mon", "Morning"⟩] := by
  obtain ⟨hdt, habs, -, -, hgabs, -⟩ := C9_toggle_pair emptyStore "d1" "Mon" "Mon" "Morning"
  exact ⟨hdt _, habs (by simp [emptyStore]), hgabs (by simp [emptyStore])⟩

/-- C10: splitting any string on "," yields a non-empty list, so the
early-return guard on an empty id list in `get_doctors_batch` and
`get_appointments` is unreachable — both always run the query on the split
list; an empty ids string runs the query with the single id `""`, which
returns the empty list exactly because no stored row carries an empty id —
a row with id `""` would be returned. -/
theorem C10_split_guard_unreachable :
    (∀ s : String, pySplit s ≠ [])
    ∧ (∀ (store : Store) (s : String),
        get_doctors_batch store s
          = store.doctors.filter (fun d => (pySplit s).contains d.id))
    ∧ (∀ (store : Store) (s : String),
        get_appointments store s
          = orderByRank (store.appointments.filter (fun a => (pySplit s).contains a.doctor_id)))
    ∧ pySplit "" = [""]
    ∧ (∀ store : Store, (∀ d ∈ store.doctors, d.id ≠ "") → get_doctors_batch store "" = [])
    ∧ (∀ (store : Store) (d : Doctor), d ∈ store.doctors → d.id = "" →
        d ∈ get_doctors_batch store "") := by
  have hguard : ∀ (store : Store) (s : String),
      get_doctors_batch store s = store.doctors.filter (fun d => (pySplit s).contains d.id) := by
    intro store s
    show (if (pySplit s).isEmpty then []
        else store.doctors.filter (fun d => (pySplit s).contains d.id)) = _
    cases hs : pySplit s with
    | nil => exact absurd hs (pySplit_ne_nil s)
    | cons x xs => rw [if_neg (by simp)]
  have hguard2 : ∀ (store : Store) (s : String),
      get_appointments store s
        = orderByRank (store.appointments.filter (fun a => (pySplit s).contains a.doctor_id)) := by
    intro store s
    show (if (pySplit s).isEmpty then []
        else orderByRank (store.appointments.filter
          (fun a => (pySplit s).contains a.doctor_id))) = _
    cases hs : pySplit s with
    | nil => exact absurd hs (pySplit_ne_nil s)
    | cons x xs => rw [if_neg (by simp)]
  have hsplit : pySplit "" = [""] := by decide
  refine ⟨pySplit_ne_nil, hguard, hguard2, hsplit, ?_, ?_⟩
  · intro store hids
    rw [hguard]
    apply List.filter_eq_nil_iff.mpr
    intro d hd
    rw [hsplit]
    simp
    exact fun e => hids d hd e
  · intro store d hd hide
    rw [hguard]
    apply List.mem_filter.mpr
    refine ⟨hd, ?_⟩
    rw [hsplit]
    simp [hide]

/-- Witness for C10: the empty-ids query returns nothing on the empty store,
and returns a stored practitioner whose id is the empty string. -/
theorem C10_split_guard_witness :
    get_doctors_batch emptyStore "" = []
    ∧ ({ exDoctor with id := "" } : Doctor)
        ∈ get_doctors_batch { emptyStore with doctors := [{ exDoctor with id := "" }] } "" := by
  obtain ⟨-, -, -, -, h5, h6⟩ := C10_split_guard_unreachable
  exact ⟨h5 emptyStore (by intro d hd; simp [emptyStore] at hd), h6 _ _ (by simp) rfl⟩

end DentBook
